import Mathlib

/-
Verification of the contest lifecycle and scoring core of the
Contest-Backend repository. Each definition is a shallow embedding of a
route handler, model hook or helper from the source; the theorems settle
the frozen claims about the participation tracker, the scoring and
leaderboard computation, the lifecycle guards and the judge boundary.

Conventions: Mongo ObjectIds are Nat, dates are Nat milliseconds since
epoch, documents are structures. A route handler that can answer with an
error status is embedded as a function into an outcome inductive; the
state it would persist is returned alongside the outcome.
-/

namespace ContestBackend

/-- Submission status values used by the contest schemas: IN_PROGRESS,
PASSED and FAILED from the activeParticipant schema in models/Contest.js,
PENDING from the participants schema (unnamed Contest model variant). -/
inductive SubStatus where
  | pending
  | inProgress
  | passed
  | failed
deriving DecidableEq, Repr

/-- A submission subdocument as stored under registeredStudents and
activeParticipants in models/Contest.js: problemId, code, language,
status, submittedAt. -/
structure RegSubmission where
  problemId : Nat
  code : String
  language : String
  status : SubStatus
  submittedAt : Nat
deriving DecidableEq, Repr

/-- A registeredStudents element in models/Contest.js: student, startedAt
(null until the student starts) and a submissions array. The array fields
are Options because the pre-save hook in the model explicitly guards
against their being missing. -/
structure RegParticipant where
  student : Nat
  startedAt : Option Nat := none
  submissions : Option (List RegSubmission) := none
deriving DecidableEq, Repr

/-- A problems element of the contest schema (models/Contest.js and the
unnamed Contest model variant): a problem reference and the
contest-specific points for that problem. -/
structure ContestProblemEntry where
  problem : Nat
  points : Nat
deriving DecidableEq, Repr

/-- The Contest document of models/Contest.js, restricted to the fields
the verified routes read or write. -/
structure ContestDoc where
  startTime : Nat
  duration : Nat
  isPublished : Bool := false
  problems : List ContestProblemEntry := []
  registeredStudents : Option (List RegParticipant) := none
  activeParticipants : Option (List RegParticipant) := none
deriving DecidableEq, Repr

/-- The per-participant part of the pre-save hook in models/Contest.js
(lines 114-124): a participant with a missing submissions array gets an
empty one. -/
def fillSubmissions (p : RegParticipant) : RegParticipant :=
  match p.submissions with
  | none => { p with submissions := some [] }
  | some _ => p

/-- The pre-save hook of contestSchema in models/Contest.js (lines
106-127): a missing registeredStudents or activeParticipants array is
replaced by an empty one, and every participant in either array gets a
submissions array if it is missing. -/
def preSave (c : ContestDoc) : ContestDoc :=
  let reg := (c.registeredStudents.getD []).map fillSubmissions
  let act := (c.activeParticipants.getD []).map fillSubmissions
  { c with registeredStudents := some reg, activeParticipants := some act }

/-- A participant array is normalized when it is present and every
element has a present submissions array. -/
def participantsArrayOk : Option (List RegParticipant) → Bool
  | none => false
  | some l => l.all fun p => p.submissions.isSome

theorem fillSubmissions_isSome (p : RegParticipant) :
    (fillSubmissions p).submissions.isSome = true := by
  cases h : p.submissions <;> simp [fillSubmissions, h]

/-- C10: after every save of a Contest document the registeredStudents and
activeParticipants fields are arrays (never null), and every participant
element in either array has a submissions array, because the pre-save
hook re-establishes this before each persist. -/
theorem preSave_normalizes (c : ContestDoc) :
    participantsArrayOk (preSave c).registeredStudents = true ∧
    participantsArrayOk (preSave c).activeParticipants = true := by
  refine ⟨?_, ?_⟩ <;>
  · simp only [preSave, participantsArrayOk, List.all_eq_true]
    intro p hp
    rw [List.mem_map] at hp
    obtain ⟨q, _, rfl⟩ := hp
    exact fillSubmissions_isSome q

/-! The solved set of a submission list, as derived by the
studentProgress virtual in models/Contest.js (lines 130-167): the set of
problemIds having at least one PASSED submission record. -/

/-- Distinct problem ids with a PASSED record, per the studentProgress
virtual (a Set is filled with the problemId of every submission whose
status is PASSED). -/
def solvedSet (subs : List RegSubmission) : Finset Nat :=
  ((subs.filter fun s => s.status == SubStatus.passed).map fun s => s.problemId).toFinset

theorem mem_solvedSet {x : Nat} {subs : List RegSubmission} :
    x ∈ solvedSet subs ↔
      ∃ s ∈ subs, s.status = SubStatus.passed ∧ s.problemId = x := by
  simp only [solvedSet, List.mem_toFinset, List.mem_map, List.mem_filter,
    beq_iff_eq]
  constructor
  · rintro ⟨s, ⟨hs, hstat⟩, hx⟩
    exact ⟨s, hs, hstat, hx⟩
  · rintro ⟨s, hs, hstat, hx⟩
    exact ⟨s, ⟨hs, hstat⟩, hx⟩

/-- The PASSED submission object built by updateSubmissionStatus in
contestRoutes.js (lines 457-463). -/
def passedSubmission (problemId : Nat) (code language : String) (time : Nat) :
    RegSubmission :=
  { problemId := problemId, code := code, language := language,
    status := SubStatus.passed, submittedAt := time }

/-- updateSubmissionStatus in contestRoutes.js (lines 451-478), acting on
a submission list: the first submission with the given problemId is
replaced by a PASSED submission, and if none exists the PASSED submission
is pushed at the end. The helper only ever writes status PASSED. -/
def updateSubmissionStatus (problemId : Nat) (code language : String) (time : Nat) :
    List RegSubmission → List RegSubmission
  | [] => [passedSubmission problemId code language time]
  | s :: rest =>
    if s.problemId = problemId then
      passedSubmission problemId code language time :: rest
    else
      s :: updateSubmissionStatus problemId code language time rest

/-- POST /student/contests/:id/save-code in contestRoutes.js (lines
481-553), acting on a submission list: an existing submission for the
problem keeps its status and only gets new code, language and timestamp;
otherwise an IN_PROGRESS submission is pushed. -/
def saveCode (problemId : Nat) (code language : String) (time : Nat) :
    List RegSubmission → List RegSubmission
  | [] => [{ problemId := problemId, code := code, language := language,
             status := SubStatus.inProgress, submittedAt := time }]
  | s :: rest =>
    if s.problemId = problemId then
      { s with code := code, language := language, submittedAt := time } :: rest
    else
      s :: saveCode problemId code language time rest

/-- One mutation of a participant submission list. rawSubmit is the
append performed by POST /:id/problems/:problemId/submit (contestRoutes.js
lines 971-978; the record carries whatever status the request body
supplies). passedUpdate is updateSubmissionStatus. saveCodeUpdate is the
save-code route. -/
inductive SubmissionEvent where
  | rawSubmit (s : RegSubmission)
  | passedUpdate (problemId : Nat) (code language : String) (time : Nat)
  | saveCodeUpdate (problemId : Nat) (code language : String) (time : Nat)

def applyEvent (subs : List RegSubmission) : SubmissionEvent → List RegSubmission
  | SubmissionEvent.rawSubmit s => subs ++ [s]
  | SubmissionEvent.passedUpdate p code lang t => updateSubmissionStatus p code lang t subs
  | SubmissionEvent.saveCodeUpdate p code lang t => saveCode p code lang t subs

def applyEvents (subs : List RegSubmission) (evts : List SubmissionEvent) :
    List RegSubmission :=
  evts.foldl applyEvent subs

theorem solvedSet_subset_updateSubmissionStatus
    (problemId : Nat) (code lang : String) (t : Nat) (subs : List RegSubmission) :
    solvedSet subs ⊆ solvedSet (updateSubmissionStatus problemId code lang t subs) := by
  induction subs with
  | nil =>
    intro x hx
    rw [mem_solvedSet] at hx
    obtain ⟨s, hs, _, _⟩ := hx
    cases hs
  | cons a rest ih =>
    intro x hx
    rw [mem_solvedSet] at hx
    obtain ⟨s, hs, hstat, hpid⟩ := hx
    rw [List.mem_cons] at hs
    show x ∈ solvedSet (updateSubmissionStatus problemId code lang t (a :: rest))
    rw [updateSubmissionStatus]
    by_cases ha : a.problemId = problemId
    · rw [if_pos ha, mem_solvedSet]
      rcases hs with rfl | hs
      · exact ⟨passedSubmission problemId code lang t, List.mem_cons_self _ _, rfl,
          ha ▸ hpid⟩
      · exact ⟨s, List.mem_cons_of_mem _ hs, hstat, hpid⟩
    · rw [if_neg ha]
      rcases hs with rfl | hs
      · rw [mem_solvedSet]
        exact ⟨s, List.mem_cons_self _ _, hstat, hpid⟩
      · have hmem : x ∈ solvedSet (updateSubmissionStatus problemId code lang t rest) :=
          ih (by rw [mem_solvedSet]; exact ⟨s, hs, hstat, hpid⟩)
        rw [mem_solvedSet] at hmem ⊢
        obtain ⟨u, hu, h1, h2⟩ := hmem
        exact ⟨u, List.mem_cons_of_mem _ hu, h1, h2⟩

theorem solvedSet_subset_saveCode
    (problemId : Nat) (code lang : String) (t : Nat) (subs : List RegSubmission) :
    solvedSet subs ⊆ solvedSet (saveCode problemId code lang t subs) := by
  induction subs with
  | nil =>
    intro x hx
    rw [mem_solvedSet] at hx
    obtain ⟨s, hs, _, _⟩ := hx
    cases hs
  | cons a rest ih =>
    intro x hx
    rw [mem_solvedSet] at hx
    obtain ⟨s, hs, hstat, hpid⟩ := hx
    rw [List.mem_cons] at hs
    show x ∈ solvedSet (saveCode problemId code lang t (a :: rest))
    rw [saveCode]
    by_cases ha : a.problemId = problemId
    · rw [if_pos ha, mem_solvedSet]
      rcases hs with rfl | hs
      · exact ⟨{ s with code := code, language := lang, submittedAt := t },
          List.mem_cons_self _ _, hstat, hpid⟩
      · exact ⟨s, List.mem_cons_of_mem _ hs, hstat, hpid⟩
    · rw [if_neg ha]
      rcases hs with rfl | hs
      · rw [mem_solvedSet]
        exact ⟨s, List.mem_cons_self _ _, hstat, hpid⟩
      · have hmem : x ∈ solvedSet (saveCode problemId code lang t rest) :=
          ih (by rw [mem_solvedSet]; exact ⟨s, hs, hstat, hpid⟩)
        rw [mem_solvedSet] at hmem ⊢
        obtain ⟨u, hu, h1, h2⟩ := hmem
        exact ⟨u, List.mem_cons_of_mem _ hu, h1, h2⟩

theorem solvedSet_subset_append (subs : List RegSubmission) (s : RegSubmission) :
    solvedSet subs ⊆ solvedSet (subs ++ [s]) := by
  intro x hx
  rw [mem_solvedSet] at hx ⊢
  obtain ⟨u, hu, h1, h2⟩ := hx
  exact ⟨u, List.mem_append_left _ hu, h1, h2⟩

theorem solvedSet_subset_applyEvent (subs : List RegSubmission) (e : SubmissionEvent) :
    solvedSet subs ⊆ solvedSet (applyEvent subs e) := by
  cases e with
  | rawSubmit s => exact solvedSet_subset_append subs s
  | passedUpdate p code lang t => exact solvedSet_subset_updateSubmissionStatus p code lang t subs
  | saveCodeUpdate p code lang t => exact solvedSet_subset_saveCode p code lang t subs

/-- C2: once a submission record for a problem is PASSED the problem stays
in the solved set after every further recorded mutation (raw submit pushes
with any status, including FAILED; updateSubmissionStatus; save-code), and
the size of the solved set never decreases. -/
theorem solvedSet_monotone (subs : List RegSubmission) (evts : List SubmissionEvent) :
    solvedSet subs ⊆ solvedSet (applyEvents subs evts) ∧
    (solvedSet subs).card ≤ (solvedSet (applyEvents subs evts)).card := by
  suffices h : solvedSet subs ⊆ solvedSet (applyEvents subs evts) from
    ⟨h, Finset.card_le_card h⟩
  induction evts generalizing subs with
  | nil => exact fun x hx => hx
  | cons e rest ih =>
    exact fun x hx =>
      ih (applyEvent subs e) (solvedSet_subset_applyEvent subs e hx)

/-- Witness for the monotonicity theorem at a concrete trace: problem 1 is
PASSED in the initial list; after a FAILED raw resubmission, a save-code
overwrite and an updateSubmissionStatus for another problem it is still in
the solved set, and the solved count has not decreased. -/
theorem solvedSet_monotone_witness :
    1 ∈ solvedSet (applyEvents
      [passedSubmission 1 "print(1)" "python" 5]
      [SubmissionEvent.rawSubmit
          { problemId := 1, code := "x", language := "python",
            status := SubStatus.failed, submittedAt := 9 },
        SubmissionEvent.saveCodeUpdate 1 "y" "python" 12,
        SubmissionEvent.passedUpdate 2 "z" "python" 20]) ∧
    (solvedSet [passedSubmission 1 "print(1)" "python" 5]).card ≤
      (solvedSet (applyEvents
        [passedSubmission 1 "print(1)" "python" 5]
        [SubmissionEvent.rawSubmit
            { problemId := 1, code := "x", language := "python",
              status := SubStatus.failed, submittedAt := 9 },
          SubmissionEvent.saveCodeUpdate 1 "y" "python" 12,
          SubmissionEvent.passedUpdate 2 "z" "python" 20])).card := by
  have h := solvedSet_monotone
    [passedSubmission 1 "print(1)" "python" 5]
    [SubmissionEvent.rawSubmit
        { problemId := 1, code := "x", language := "python",
          status := SubStatus.failed, submittedAt := 9 },
      SubmissionEvent.saveCodeUpdate 1 "y" "python" 12,
      SubmissionEvent.passedUpdate 2 "z" "python" 20]
  exact ⟨h.1 (by decide), h.2⟩

/-! Leaderboard rows, the two sort comparators found in the source, and a
stable sort modelling Array.prototype.sort with a comparator. -/

/-- One leaderboard row as shaped by the GET /:id/leaderboard handlers:
student, totalPoints, problemsSolved and the nullable lastSubmission. -/
structure LeaderboardRow where
  student : Nat
  totalPoints : Nat
  problemsSolved : Nat
  lastSubmission : Option Nat
deriving DecidableEq, Repr

/-- Numeric coercion applied by the comparators to the nullable
lastSubmission when it is subtracted: null coerces to 0, a Date to its
epoch milliseconds. -/
def dateNum : Option Nat → Int
  | none => 0
  | some t => (t : Int)

/-- The comparator of GET /:id/leaderboard in contestRoutes.js (lines
1013-1018): descending by totalPoints, then ascending by lastSubmission.
It has no problemsSolved tie-break. -/
def leaderboardCmp (a b : LeaderboardRow) : Int :=
  if b.totalPoints ≠ a.totalPoints then
    (b.totalPoints : Int) - (a.totalPoints : Int)
  else
    dateNum a.lastSubmission - dateNum b.lastSubmission

/-- The comparator of GET /:id/leaderboard in the part_007 route variant
(lines 237-245): descending by totalPoints, then descending by
problemsSolved, then ascending by lastSubmission. -/
def leaderboardCmpFull (a b : LeaderboardRow) : Int :=
  if b.totalPoints ≠ a.totalPoints then
    (b.totalPoints : Int) - (a.totalPoints : Int)
  else if b.problemsSolved ≠ a.problemsSolved then
    (b.problemsSolved : Int) - (a.problemsSolved : Int)
  else
    dateNum a.lastSubmission - dateNum b.lastSubmission

/-- Insert an element into a list sorted by a JS-style comparator, before
the first element it does not have to follow (comparator value at most 0
keeps the incoming element first, which makes the sort stable). -/
def insertByCmp (cmp : α → α → Int) (x : α) : List α → List α
  | [] => [x]
  | y :: rest => if cmp x y ≤ 0 then x :: y :: rest else y :: insertByCmp cmp x rest

/-- Stable sort by a JS-style comparator (negative: first argument sorts
first), modelling Array.prototype.sort. -/
def sortByCmp (cmp : α → α → Int) (l : List α) : List α :=
  l.foldr (insertByCmp cmp) []

theorem mem_insertByCmp {cmp : α → α → Int} {x a : α} :
    ∀ {l : List α}, a ∈ insertByCmp cmp x l ↔ a = x ∨ a ∈ l := by
  intro l
  induction l with
  | nil => simp [insertByCmp]
  | cons y rest ih =>
    rw [insertByCmp]
    by_cases h : cmp x y ≤ 0
    · rw [if_pos h]
      simp [List.mem_cons]
    · rw [if_neg h]
      simp only [List.mem_cons, ih]
      tauto

theorem mem_sortByCmp {cmp : α → α → Int} {a : α} :
    ∀ {l : List α}, a ∈ sortByCmp cmp l ↔ a ∈ l := by
  intro l
  induction l with
  | nil => simp [sortByCmp]
  | cons y rest ih =>
    show a ∈ insertByCmp cmp y (sortByCmp cmp rest) ↔ _
    rw [mem_insertByCmp, ih]
    simp [List.mem_cons]

/-! The contest document shape used by the route variant at
contestRoutes.js lines 786-1283 (start, submit, leaderboard) and by the
part_007 variant: a participants array with startTime, submissions,
completedProblems and a stored totalPoints, matching the participants
subdocument of the unnamed Contest model variant (part_000). -/

/-- A submission as pushed by POST /:id/problems/:problemId/submit
(contestRoutes.js lines 971-976): problemId, status from the request
body, points awarded at submission time, submittedAt. -/
structure PSubmission where
  problemId : Nat
  status : SubStatus
  points : Nat
  submittedAt : Nat
deriving DecidableEq, Repr

/-- A participants element per the unnamed Contest model variant
(part_000 lines 44-75): completedProblems defaults to the empty array and
totalPoints to 0, which is also what the start route pushes. -/
structure Participant where
  student : Nat
  startTime : Nat
  completedProblems : List Nat := []
  totalPoints : Nat := 0
  submissions : List PSubmission := []
deriving DecidableEq, Repr

/-- The contest document as read by the start/submit/leaderboard/complete
route variant (contestRoutes.js lines 879-1281): its problems array holds
the problem/points entries of the contest schemas. -/
structure SContest where
  startTime : Nat
  duration : Nat
  problems : List ContestProblemEntry := []
  participants : List Participant := []
deriving DecidableEq, Repr

/-- Replace the first list element satisfying the selector, modelling an
in-place mutation of the element found by Array.prototype.find. -/
def replaceFirst (sel : α → Bool) (q : α) : List α → List α
  | [] => []
  | x :: rest => if sel x then q :: rest else x :: replaceFirst sel q rest

/-- One row of GET /:id/leaderboard (contestRoutes.js lines 1001-1012):
the reported totalPoints is the stored participant.totalPoints;
problemsSolved counts the PASSED submission records (resubmissions
included); lastSubmission is the timestamp of the final record or null
when there are no submissions. -/
def leaderboardRow (p : Participant) : LeaderboardRow :=
  { student := p.student
    totalPoints := p.totalPoints
    problemsSolved := (p.submissions.filter fun s => s.status == SubStatus.passed).length
    lastSubmission := p.submissions.getLast?.map fun s => s.submittedAt }

/-- GET /:id/leaderboard (contestRoutes.js lines 992-1024): map every
participant to a row and sort with the two-key comparator. -/
def contestLeaderboard (c : SContest) : List LeaderboardRow :=
  sortByCmp leaderboardCmp (c.participants.map leaderboardRow)

/-- One row of GET /:id/leaderboard in the part_007 variant (lines
219-236): totalPoints is recomputed on read from the completedProblems
set, summing the contest-specific points of each completed problem (0
when the problem is no longer in the contest); problemsSolved is the size
of that set. -/
def leaderboardRowFull (problems : List ContestProblemEntry) (p : Participant) :
    LeaderboardRow :=
  { student := p.student
    totalPoints := p.completedProblems.foldl
      (fun sum pid => sum + (((problems.find? fun q => q.problem == pid).map
        fun q => q.points).getD 0)) 0
    problemsSolved := p.completedProblems.length
    lastSubmission := p.submissions.getLast?.map fun s => s.submittedAt }

/-- GET /:id/leaderboard in the part_007 variant (lines 208-252): map
every participant to a recomputed row and sort with the three-key
comparator. -/
def contestLeaderboardFull (problems : List ContestProblemEntry)
    (parts : List Participant) : List LeaderboardRow :=
  sortByCmp leaderboardCmpFull (parts.map (leaderboardRowFull problems))

def c3RowA : LeaderboardRow :=
  { student := 1, totalPoints := 10, problemsSolved := 1, lastSubmission := some 5 }

def c3RowB : LeaderboardRow :=
  { student := 2, totalPoints := 10, problemsSolved := 2, lastSubmission := some 10 }

/-- C3: the ordering claimed for the standing (totalPoints descending,
then problemsSolved descending, then lastSubmission ascending) is the one
implemented by the part_007 comparator, but the GET /:id/leaderboard
comparator at contestRoutes.js lines 1013-1018 omits the problemsSolved
tie-break: with equal totalPoints it orders by lastSubmission alone, so
row A (1 problem solved, earlier last submission) is ranked above row B
(2 problems solved), while the claimed ordering puts B first. -/
theorem leaderboard_tiebreak_divergence :
    sortByCmp leaderboardCmp [c3RowA, c3RowB] = [c3RowA, c3RowB] ∧
    sortByCmp leaderboardCmpFull [c3RowA, c3RowB] = [c3RowB, c3RowA] ∧
    c3RowA.totalPoints = c3RowB.totalPoints ∧
    c3RowA.problemsSolved < c3RowB.problemsSolved := by
  decide

def c4ZeroParticipant : Participant := { student := 1, startTime := 0 }

def c4FailedParticipant : Participant :=
  { student := 2, startTime := 0,
    submissions := [{ problemId := 1, status := SubStatus.failed, points := 0,
                      submittedAt := 100 }] }

def c4Contest : SContest :=
  { startTime := 0, duration := 60,
    problems := [{ problem := 1, points := 100 }],
    participants := [c4ZeroParticipant, c4FailedParticipant] }

/-- C4 counterexample: in a contest where student 1 has zero submissions
and student 2 has one FAILED submission (both rows worth 0 points), the
computed standing places the zero-submission row FIRST, not last: its
null lastSubmission coerces to 0 in the comparator subtraction and so
sorts as the earliest possible time. The claimed ranking (zero-submission
row last) is false at this input. -/
theorem zero_submission_row_ranks_first :
    contestLeaderboard c4Contest =
      [{ student := 1, totalPoints := 0, problemsSolved := 0, lastSubmission := none },
       { student := 2, totalPoints := 0, problemsSolved := 0, lastSubmission := some 100 }] ∧
    (contestLeaderboard c4Contest).getLast? ≠
      some { student := 1, totalPoints := 0, problemsSolved := 0, lastSubmission := none } := by
  decide

/-- C4 amended: the leaderboard computation is total on zero-submission
enrollments — a participant with no submissions (and the stored
totalPoints 0 that the start route creates) yields a row with
totalPoints 0, problemsSolved 0 and a null lastSubmissionAt, the row
appears in the computed standing, and every row with positive totalPoints
ranks strictly before it under both source comparators; but among rows
with equal totalPoints the null lastSubmissionAt coerces to 0, so the row
ranks first among such ties rather than last. -/
theorem leaderboard_total_for_zero_submissions
    (c : SContest) (p : Participant) (hmem : p ∈ c.participants)
    (hsub : p.submissions = []) (hpts : p.totalPoints = 0) :
    leaderboardRow p =
      { student := p.student, totalPoints := 0, problemsSolved := 0,
        lastSubmission := none } ∧
    leaderboardRow p ∈ contestLeaderboard c ∧
    (∀ r : LeaderboardRow, 0 < r.totalPoints →
      leaderboardCmp r (leaderboardRow p) < 0) ∧
    (∀ r : LeaderboardRow, 0 < r.totalPoints →
      leaderboardCmpFull r (leaderboardRow p) < 0) := by
  have hrow : leaderboardRow p =
      { student := p.student, totalPoints := 0, problemsSolved := 0,
        lastSubmission := none } := by
    simp [leaderboardRow, hsub, hpts]
  refine ⟨hrow, ?_, ?_, ?_⟩
  · rw [contestLeaderboard, mem_sortByCmp, List.mem_map]
    exact ⟨p, hmem, rfl⟩
  · intro r hr
    rw [hrow]
    have hne : (0 : Nat) ≠ r.totalPoints := by omega
    simp only [leaderboardCmp, dateNum]
    rw [if_pos hne]
    omega
  · intro r hr
    rw [hrow]
    have hne : (0 : Nat) ≠ r.totalPoints := by omega
    simp only [leaderboardCmpFull, dateNum]
    rw [if_pos hne]
    omega

/-- Witness for the amended C4 theorem at the concrete contest above,
with a concrete positive-points row ranked before the zero row. -/
theorem leaderboard_total_for_zero_submissions_witness :
    leaderboardRow c4ZeroParticipant =
      { student := 1, totalPoints := 0, problemsSolved := 0, lastSubmission := none } ∧
    leaderboardRow c4ZeroParticipant ∈ contestLeaderboard c4Contest ∧
    leaderboardCmp
      { student := 9, totalPoints := 5, problemsSolved := 1, lastSubmission := some 3 }
      (leaderboardRow c4ZeroParticipant) < 0 ∧
    leaderboardCmpFull
      { student := 9, totalPoints := 5, problemsSolved := 1, lastSubmission := some 3 }
      (leaderboardRow c4ZeroParticipant) < 0 := by
  have h := leaderboard_total_for_zero_submissions c4Contest c4ZeroParticipant
    (by decide) (by rfl) (by rfl)
  exact ⟨h.1, h.2.1, h.2.2.1 _ (by decide), h.2.2.2 _ (by decide)⟩

/-! The submit and complete routes of the start/submit/leaderboard
variant (contestRoutes.js lines 938-989 and 1148-1281), which decide how
recorded results and totalPoints can actually change (C1). -/

/-- The participant mutation of the complete routes (contestRoutes.js
lines 1180-1196 and 1249-1261, and the existing-participant branch of the
part_007 complete route at lines 427-449), applied for a request
(problemId, now): when the problem has a contest.problems entry and is
not yet in completedProblems, append it, add the contest-specific entry
points to the stored totalPoints, and push a PASSED submission record;
otherwise nothing changes (a repeat completion is a no-op, and a problem
without an entry is a 404 at the route level). The pushed record carries
no points key in the source or the schema, modelled as 0, and its code
field is not modelled since nothing verified reads it. -/
def applyComplete (problems : List ContestProblemEntry) (p : Participant)
    (op : Nat × Nat) : Participant :=
  match problems.find? fun q => q.problem == op.1 with
  | none => p
  | some contestProblem =>
    if op.1 ∈ p.completedProblems then p
    else
      let record : PSubmission :=
        { problemId := op.1, status := SubStatus.passed, points := 0,
          submittedAt := op.2 }
      { p with
        completedProblems := p.completedProblems ++ [op.1],
        totalPoints := p.totalPoints + contestProblem.points,
        submissions := p.submissions ++ [record] }

/-- Outcome of the complete routes. -/
inductive CompleteResult where
  | participantNotFound
  | problemNotFound
  | ok (c : SContest)
deriving DecidableEq, Repr

/-- POST /:contestId/problems/:problemId/complete (contestRoutes.js lines
1224-1281, same logic with a defensive totalPoints fallback at lines
1148-1221): 404 without an existing participant or without a
contest.problems entry for the problem, else the participant mutation of
applyComplete. -/
def completeProblem (c : SContest) (uid pid : Nat) (now : Nat) : CompleteResult :=
  match c.participants.find? fun p => p.student == uid with
  | none => CompleteResult.participantNotFound
  | some participant =>
    match c.problems.find? fun q => q.problem == pid with
    | none => CompleteResult.problemNotFound
    | some _ =>
      let updated := applyComplete c.problems participant (pid, now)
      let sel := fun (q : Participant) => q.student == uid
      CompleteResult.ok { c with participants := replaceFirst sel updated c.participants }

/-- Outcome of POST /student/contests/:id/register (contestRoutes.js
lines 65-100): 400 when the student is already registered, success
otherwise. -/
inductive RegisterOutcome where
  | alreadyRegistered
  | ok
deriving DecidableEq, Repr

/-- POST /student/contests/:id/register (contestRoutes.js lines 65-100):
reject when some registeredStudents element has this student, else push a
fresh enrollment with null startedAt and an empty submissions array. The
route performs no lifecycle check at all: it never reads the clock,
startTime or duration. -/
def registerStudent (c : ContestDoc) (uid : Nat) : RegisterOutcome × ContestDoc :=
  let regs := c.registeredStudents.getD []
  if regs.any fun p => p.student == uid then
    (RegisterOutcome.alreadyRegistered, c)
  else
    let fresh : RegParticipant :=
      { student := uid, startedAt := none, submissions := some [] }
    (RegisterOutcome.ok, { c with registeredStudents := some (regs ++ [fresh]) })

/-- Number of registeredStudents entries for one student. -/
def registrationCount (c : ContestDoc) (uid : Nat) : Nat :=
  ((c.registeredStudents.getD []).filter fun p => p.student == uid).length

/-- Outcome of POST /:id/start (contestRoutes.js lines 879-935). -/
inductive StartOutcome where
  | notStarted
  | alreadyEnded
  | rejoined (startTime : Nat)
  | joined
deriving DecidableEq, Repr

/-- POST /:id/start (contestRoutes.js lines 879-935): reject before
startTime and after startTime + duration minutes; an existing participant
gets a success response with the original startTime and no state change;
otherwise a fresh participant (empty submissions, totalPoints 0) is
pushed. -/
def startContest (c : SContest) (uid : Nat) (now : Nat) : StartOutcome × SContest :=
  if now < c.startTime then
    (StartOutcome.notStarted, c)
  else if now > c.startTime + c.duration * 60000 then
    (StartOutcome.alreadyEnded, c)
  else
    match c.participants.find? fun p => p.student == uid with
    | some p => (StartOutcome.rejoined p.startTime, c)
    | none =>
      (StartOutcome.joined,
        { c with participants := c.participants ++ [{ student := uid, startTime := now }] })

/-- Number of participants entries for one student. -/
def participantCount (c : SContest) (uid : Nat) : Nat :=
  (c.participants.filter fun p => p.student == uid).length

def c6Doc : ContestDoc := { startTime := 0, duration := 60 }

/-- C6 counterexample: calling the register route twice for the same
(student, contest) makes the second call answer with the
already-registered error (HTTP 400), not with an idempotent no-op
success, refuting the claim that the second call succeeds. -/
theorem second_register_rejected :
    (registerStudent (registerStudent c6Doc 5).2 5).1
      = RegisterOutcome.alreadyRegistered ∧
    (registerStudent (registerStudent c6Doc 5).2 5).1 ≠ RegisterOutcome.ok := by
  decide

theorem find?_append_of_none {p : α → Bool} {l1 : List α} (l2 : List α)
    (h : l1.find? p = none) : (l1 ++ l2).find? p = l2.find? p := by
  induction l1 with
  | nil => rfl
  | cons a rest ih =>
    rw [List.find?] at h
    cases hpa : p a with
    | true => rw [hpa] at h; cases h
    | false =>
      rw [hpa] at h
      show List.find? p (a :: (rest ++ l2)) = _
      rw [List.find?, hpa]
      exact ih h

theorem filter_append_length (p : α → Bool) (l1 l2 : List α) :
    ((l1 ++ l2).filter p).length = (l1.filter p).length + (l2.filter p).length := by
  rw [List.filter_append, List.length_append]

/-- C6 amended: no variant ever creates a duplicate enrollment — after
two calls there is exactly one enrollment for the pair — and the second
call to the start route succeeds as a no-op returning the original
startTime, but the second call to the register route answers with the
already-registered error instead of an idempotent success. -/
theorem join_idempotent_amended
    (c : ContestDoc) (sc : SContest) (uid now now2 : Nat)
    (h0 : ((c.registeredStudents.getD []).any fun p => p.student == uid) = false)
    (hs1 : ¬ now < sc.startTime) (he1 : ¬ now > sc.startTime + sc.duration * 60000)
    (hnp : (sc.participants.find? fun p => p.student == uid) = none)
    (hs2 : ¬ now2 < sc.startTime) (he2 : ¬ now2 > sc.startTime + sc.duration * 60000) :
    registrationCount (registerStudent c uid).2 uid = registrationCount c uid + 1 ∧
    registerStudent (registerStudent c uid).2 uid
      = (RegisterOutcome.alreadyRegistered, (registerStudent c uid).2) ∧
    (startContest sc uid now).1 = StartOutcome.joined ∧
    participantCount (startContest sc uid now).2 uid = participantCount sc uid + 1 ∧
    startContest (startContest sc uid now).2 uid now2
      = (StartOutcome.rejoined now, (startContest sc uid now).2) := by
  have hreg1 : registerStudent c uid =
      (RegisterOutcome.ok,
        { c with registeredStudents := some ((c.registeredStudents.getD []) ++ [{ student := uid, startedAt := none, submissions := some [] }]) }) := by
    rw [registerStudent]
    simp only [h0, Bool.false_eq_true, if_false]
  have hstart1 : startContest sc uid now =
      (StartOutcome.joined,
        { sc with participants := sc.participants ++ [{ student := uid, startTime := now }] }) := by
    rw [startContest, if_neg hs1, if_neg he1, hnp]
  refine ⟨?_, ?_, ?_, ?_, ?_⟩
  · rw [hreg1]
    simp only [registrationCount, Option.getD_some]
    rw [filter_append_length]
    simp
  · rw [hreg1]
    rw [registerStudent]
    simp only [Option.getD_some]
    rw [if_pos]
    rw [List.any_append]
    simp
  · rw [hstart1]
  · rw [hstart1]
    simp only [participantCount]
    rw [filter_append_length]
    simp
  · rw [hstart1]
    rw [startContest, if_neg hs2, if_neg he2]
    rw [find?_append_of_none _ hnp]
    simp [List.find?]

/-- Witness for the amended C6 theorem at a concrete contest, student and
clock values. -/
theorem join_idempotent_amended_witness :
    registrationCount (registerStudent c6Doc 5).2 5 = registrationCount c6Doc 5 + 1 ∧
    registerStudent (registerStudent c6Doc 5).2 5
      = (RegisterOutcome.alreadyRegistered, (registerStudent c6Doc 5).2) ∧
    (startContest { startTime := 0, duration := 60 } 5 10).1 = StartOutcome.joined ∧
    participantCount (startContest { startTime := 0, duration := 60 } 5 10).2 5
      = participantCount { startTime := 0, duration := 60 } 5 + 1 ∧
    startContest (startContest { startTime := 0, duration := 60 } 5 10).2 5 20
      = (StartOutcome.rejoined 10, (startContest { startTime := 0, duration := 60 } 5 10).2) :=
  join_idempotent_amended c6Doc { startTime := 0, duration := 60 } 5 10 20
    (by decide) (by decide) (by decide) (by decide) (by decide) (by decide)

/-! The join route variant (contestRoutes.js lines 1355-1406), which
keeps participants as a bare array of user ids. -/

/-- The contest document as read by POST /:id/join: endTime is an Option
because no Contest schema in the repository defines an endTime field, and
the route's now > endTime comparison on a missing field (an invalid Date)
is false. -/
structure JoinRouteContest where
  startTime : Nat
  endTime : Option Nat := none
  participants : List Nat := []
deriving DecidableEq, Repr

/-- Outcome of POST /:id/join: 400 for a duplicate, 400 once the contest
has ended, or the success message for registration before startTime
versus joining after it. -/
inductive JoinOutcome where
  | alreadyRegistered
  | alreadyEnded
  | registered
  | joined
deriving DecidableEq, Repr

/-- The currentTime > endTime comparison of the join route: false when
the endTime field is missing, because comparing with an invalid Date is
false. -/
def pastEndTime (endTime : Option Nat) (now : Nat) : Bool :=
  match endTime with
  | some e => decide (e < now)
  | none => false

/-- POST /:id/join (contestRoutes.js lines 1355-1406): reject a duplicate
participant; reject when the current time is past contest.endTime; else
push the user id, answering registered before startTime and joined
otherwise. -/
def joinContest (c : JoinRouteContest) (uid : Nat) (now : Nat) :
    JoinOutcome × JoinRouteContest :=
  if c.participants.any fun p => p == uid then
    (JoinOutcome.alreadyRegistered, c)
  else if pastEndTime c.endTime now then
    (JoinOutcome.alreadyEnded, c)
  else
    let c2 := { c with participants := c.participants ++ [uid] }
    if now < c.startTime then (JoinOutcome.registered, c2) else (JoinOutcome.joined, c2)

/-- Contest document whose window (startTime 0, duration 1 minute) is
long over at every clock value from 60001 on. -/
def c7EndedDoc : ContestDoc := { startTime := 0, duration := 1 }

/-- C7 counterexample: the register route creates an enrollment for a
contest that has already ended. The route takes no clock at all — its
embedding has no time parameter — so registering succeeds and appends an
enrollment however long past startTime + duration the request arrives,
instead of being rejected with an AlreadyEnded error. -/
theorem register_ignores_contest_end :
    (registerStudent c7EndedDoc 5).1 = RegisterOutcome.ok ∧
    registrationCount (registerStudent c7EndedDoc 5).2 5 = 1 := by
  decide

/-- C7 amended: only the join route variant rejects an ended contest —
when contest.endTime is present and now is past it, an unregistered user
gets the already-ended error and no enrollment is appended — while the
register route checks no lifecycle state and creates an enrollment even
for an ended contest (it succeeds whenever the student is not already
registered). -/
theorem join_rejects_ended_register_does_not
    (c : JoinRouteContest) (d : ContestDoc) (uid now e : Nat)
    (hmem : (c.participants.any fun p => p == uid) = false)
    (hend : c.endTime = some e) (hlate : now > e)
    (hreg : ((d.registeredStudents.getD []).any fun p => p.student == uid) = false) :
    joinContest c uid now = (JoinOutcome.alreadyEnded, c) ∧
    (registerStudent d uid).1 = RegisterOutcome.ok ∧
    registrationCount (registerStudent d uid).2 uid = registrationCount d uid + 1 := by
  refine ⟨?_, ?_, ?_⟩
  · rw [joinContest]
    rw [if_neg (by simp [hmem])]
    have hpast : pastEndTime c.endTime now = true := by
      rw [hend]
      exact decide_eq_true hlate
    rw [if_pos hpast]
  · rw [registerStudent]
    simp only [hreg, Bool.false_eq_true, if_false]
  · rw [registerStudent]
    simp only [hreg, Bool.false_eq_true, if_false]
    simp only [registrationCount, Option.getD_some]
    rw [filter_append_length]
    simp

/-- Witness for the amended C7 theorem: a join attempt at time 200 on a
contest that ended at 100 is rejected without a state change, and a
register call on the long-ended contest document succeeds. -/
theorem join_rejects_ended_register_does_not_witness :
    joinContest { startTime := 0, endTime := some 100, participants := [] } 5 200
      = (JoinOutcome.alreadyEnded, { startTime := 0, endTime := some 100, participants := [] }) ∧
    (registerStudent c7EndedDoc 5).1 = RegisterOutcome.ok ∧
    registrationCount (registerStudent c7EndedDoc 5).2 5 = registrationCount c7EndedDoc 5 + 1 :=
  join_rejects_ended_register_does_not
    { startTime := 0, endTime := some 100, participants := [] } c7EndedDoc 5 200 100
    (by decide) (by decide) (by decide) (by decide)

/-! Judging: test case execution and grading, per the contest run route
(contestRoutes.js lines 371-448) and the assignment submit route
(assignmentRoutes.js lines 208-313), plus executeCode in
services/codeExecutionService.js. -/

/-- A test case of a problem: input, expected output, isHidden. -/
structure TestCase where
  input : String
  output : String
  isHidden : Bool := false
deriving DecidableEq, Repr

/-- A per-test-case result as shaped by the routes; the fields are
Options because the catch branch omits input, expected and actual. -/
structure TestResult where
  passed : Bool
  input : Option String := none
  expected : Option String := none
  actual : Option String := none
  errMsg : Option String := none
  isHidden : Bool
deriving DecidableEq, Repr

/-- Drop leading and trailing whitespace from a character list. -/
def trimChars (l : List Char) : List Char :=
  (((l.dropWhile Char.isWhitespace).reverse).dropWhile Char.isWhitespace).reverse

/-- The trim applied by the routes to stdout and to the expected output
before comparison (String.prototype.trim: strip leading and trailing
whitespace). -/
def jsTrim (s : String) : String :=
  String.mk (trimChars s.data)

/-- One test case execution, as in contestRoutes.js lines 402-435 and
identically in assignmentRoutes.js lines 250-277. The judge call is a
function from the test case input to an optional stdout; none stands for
a call that threw (network failure or the axios timeout), which the catch
branch maps to a non-passed result with a fixed message. On success the
trimmed stdout is compared with the trimmed expected output, and for a
hidden test case the input, expected and actual fields are all replaced
by the string Hidden. -/
def runTestCase (judge : String → Option String) (tc : TestCase) : TestResult :=
  match judge tc.input with
  | some out =>
    let output := jsTrim out
    let expected := jsTrim tc.output
    { passed := output == expected
      input := some (if tc.isHidden then "Hidden" else tc.input)
      expected := some (if tc.isHidden then "Hidden" else expected)
      actual := some (if tc.isHidden then "Hidden" else output)
      errMsg := some ""
      isHidden := tc.isHidden }
  | none =>
    { passed := false, errMsg := some "Code execution failed", isHidden := tc.isHidden }

/-- POST /:id/submit grading in assignmentRoutes.js (lines 250-296): run
every test case (hidden ones the same way), compute allPassed as the
conjunction, and record a submission whose status is PASSED exactly when
every test case passed, FAILED otherwise. -/
def gradeSubmission (tcs : List TestCase) (judge : String → Option String) :
    List TestResult × SubStatus :=
  let results := tcs.map (runTestCase judge)
  (results,
    if results.all fun r => r.passed then SubStatus.passed else SubStatus.failed)

/-- C8: a submission is judged PASSED iff every test case (hidden ones
included, graded identically) has trimmed stdout equal to the trimmed
expected output; and for every hidden test case the reported input,
expected and actual fields all carry the fixed string Hidden rather than
the test data. The judge is assumed to answer every call (out gives the
stdout for each input); a throwing judge call is the subject of C9. -/
theorem grading_iff_all_trim_eq (tcs : List TestCase) (out : String → String) :
    ((gradeSubmission tcs (fun s => some (out s))).2 = SubStatus.passed ↔
      ∀ tc ∈ tcs, jsTrim (out tc.input) = jsTrim tc.output) ∧
    (∀ tc ∈ tcs, tc.isHidden = true →
      (runTestCase (fun s => some (out s)) tc).input = some "Hidden" ∧
      (runTestCase (fun s => some (out s)) tc).expected = some "Hidden" ∧
      (runTestCase (fun s => some (out s)) tc).actual = some "Hidden") := by
  constructor
  · simp only [gradeSubmission]
    constructor
    · intro h tc htc
      by_cases hall : ((tcs.map (runTestCase fun s => some (out s))).all fun r => r.passed) = true
      · rw [List.all_eq_true] at hall
        have := hall (runTestCase (fun s => some (out s)) tc) (List.mem_map_of_mem _ htc)
        simp only [runTestCase, beq_iff_eq] at this
        exact this
      · rw [if_neg hall] at h
        cases h
    · intro h
      rw [if_pos]
      rw [List.all_eq_true]
      intro r hr
      rw [List.mem_map] at hr
      obtain ⟨tc, htc, rfl⟩ := hr
      simp only [runTestCase, beq_iff_eq]
      exact h tc htc
  · intro tc _ hh
    simp [runTestCase, hh]

/-- Witness for C8 at a concrete hidden test case with matching trimmed
output: the status is PASSED and the hidden data is masked. -/
theorem grading_iff_all_trim_eq_witness :
    (gradeSubmission [{ input := "1", output := " 7 ", isHidden := true }]
        (fun _ => some "7")).2 = SubStatus.passed ∧
    (runTestCase (fun s => some ((fun _ => "7") s))
        { input := "1", output := " 7 ", isHidden := true }).input = some "Hidden" := by
  have h := grading_iff_all_trim_eq
    [{ input := "1", output := " 7 ", isHidden := true }] (fun _ => "7")
  refine ⟨h.1.mpr ?_, (h.2 { input := "1", output := " 7 ", isHidden := true }
    (by decide) rfl).1⟩
  intro tc htc
  rw [List.mem_singleton] at htc
  rw [htc]
  decide

/-! The contest run route (contestRoutes.js lines 371-448), which records
a PASSED submission through updateSubmissionStatus when every test case
passes, with no check of the contest window (C5). -/

/-- An activeParticipants element: student, startTime, submissions. -/
structure ActiveParticipant where
  student : Nat
  startTime : Nat
  submissions : List RegSubmission := []
deriving DecidableEq, Repr

/-- A problems entry after population, as read by the run route: the
problem id and its test cases. -/
structure RProblemEntry where
  problem : Nat
  testCases : List TestCase
deriving DecidableEq, Repr

/-- The contest document as read by the run route. -/
structure RunContest where
  startTime : Nat
  duration : Nat
  problems : List RProblemEntry := []
  activeParticipants : List ActiveParticipant := []
deriving DecidableEq, Repr

/-- updateSubmissionStatus (contestRoutes.js lines 451-478) at the
contest level: find the active participant and replace or append the
PASSED submission for the problem; when the user is not an active
participant nothing happens. -/
def updateSubmissionStatusContest (c : RunContest) (uid problemId : Nat)
    (code lang : String) (now : Nat) : RunContest :=
  match c.activeParticipants.find? fun p => p.student == uid with
  | none => c
  | some p =>
    let upd : ActiveParticipant :=
      { p with submissions := updateSubmissionStatus problemId code lang now p.submissions }
    { c with activeParticipants :=
        replaceFirst (fun q => q.student == uid) upd c.activeParticipants }

/-- Outcome of POST /student/contests/:id/problems/:problemId/run. -/
inductive RunResult where
  | problemNotFound
  | ok (results : List TestResult) (allPassed : Bool) (c : RunContest)
deriving DecidableEq, Repr

/-- POST /student/contests/:id/problems/:problemId/run (contestRoutes.js
lines 371-448): look the problem up, execute every test case, and when
all passed record a PASSED submission via updateSubmissionStatus. The
route reads neither the clock against the contest window nor the
participant's startTime: there is no submission-window check on this
path. -/
def runProblem (c : RunContest) (uid problemId : Nat) (code lang : String)
    (judge : String → Option String) (now : Nat) : RunResult :=
  match c.problems.find? fun p => p.problem == problemId with
  | none => RunResult.problemNotFound
  | some problemData =>
    let results := problemData.testCases.map (runTestCase judge)
    let allPassed := results.all fun r => r.passed
    if allPassed then
      RunResult.ok results allPassed
        (updateSubmissionStatusContest c uid problemId code lang now)
    else
      RunResult.ok results allPassed c

/-- Contest for the C5 failing input: one problem with one test case, one
active participant whose personal window (startTime 0 plus 60 minutes =
3600000 ms) is long over at now = 10000000. -/
def c5Contest : RunContest :=
  { startTime := 0, duration := 60,
    problems := [{ problem := 1, testCases := [{ input := "", output := "42" }] }],
    activeParticipants := [{ student := 7, startTime := 0 }] }

/-- C5 at the failing input: at time 10000000, far past the participant's
personal window end 3600000, a passing run is silently recorded — the
route answers ok and the participant now has a PASSED submission record
for the problem — instead of rejecting with a window-closed error and
appending nothing. -/
theorem run_route_records_after_window :
    runProblem c5Contest 7 1 "print(42)" "python" (fun _ => some "42") 10000000
      = RunResult.ok
          [{ passed := true, input := some "", expected := some "42",
             actual := some "42", errMsg := some "", isHidden := false }]
          true
          { c5Contest with activeParticipants :=
              [{ student := 7, startTime := 0,
                 submissions := [passedSubmission 1 "print(42)" "python" 10000000] }] } ∧
    10000000 > 0 + 60 * 60000 := by
  constructor
  · decide
  · decide

/-- Transport-level outcome of the axios call inside executeCode in
services/codeExecutionService.js: a 200 response carrying output and an
optional API error field, a timeout (ECONNABORTED or HTTP 408), or
another failure. -/
inductive JudgeTransport where
  | ok (output : String) (apiErr : Option String)
  | timedOut
  | failed (msg : String)
deriving DecidableEq, Repr

/-- executeCode in services/codeExecutionService.js (lines 17-59):
success returns the output; a response carrying an API error throws it; a
timeout throws its own dedicated message, distinct from any grading
status; any other failure throws a generic message. -/
def executeCode (t : JudgeTransport) : Except String String :=
  match t with
  | JudgeTransport.ok out none => Except.ok out
  | JudgeTransport.ok _ (some e) => Except.error e
  | JudgeTransport.timedOut =>
    Except.error "Code execution timed out. Please check for infinite loops or optimize your solution."
  | JudgeTransport.failed m => Except.error ("Failed to execute code: " ++ m)

def c9TestCase : TestCase := { input := "1", output := "2" }

/-- C9 at the failing input: executeCode itself turns a timeout into a
distinct thrown message, but the route-level test runners catch every
judge failure and mark the test case not passed, so a submission whose
single judge call timed out is graded and recorded FAILED by the
assignment submit route — the timeout is collapsed into a FAILED grading
result instead of surfacing as a distinct judge-timeout error. -/
theorem timeout_recorded_as_failed :
    executeCode JudgeTransport.timedOut
      = Except.error "Code execution timed out. Please check for infinite loops or optimize your solution." ∧
    (gradeSubmission [c9TestCase]
        (fun _ => (executeCode JudgeTransport.timedOut).toOption)).2
      = SubStatus.failed ∧
    (runTestCase (fun _ => (executeCode JudgeTransport.timedOut).toOption) c9TestCase).passed
      = false := by
  exact ⟨rfl, rfl, rfl⟩

end ContestBackend
